import Mathlib

/-
Shallow embedding of the polynomial root-finding engine of this repository:
  - src/app.py       (web engine: eval_poly, get_poly_derivative, solve_method)
  - src/ZOF_CLI.py   (terminal engine: eval_poly, solve_loop, bracketing_method,
                      open_method, secant_wrapper, and the per-method lambdas of main)
Real (Python float) arithmetic is modelled by exact rationals; the claims under
study are about control flow and exact update formulas, not rounding.
-/

namespace ZOF

/- Batteries marks the rational operations irreducible, which blocks the
   evaluation of concrete runs by decide; restore default reducibility here. -/
attribute [local semireducible] Rat.add Rat.mul Rat.inv Rat.sub

/-- app.py eval_poly / ZOF_CLI.py eval_poly: Horner evaluation, accumulator starts at 0.0. -/
def eval_poly (c : List ℚ) (x : ℚ) : ℚ :=
  c.foldl (fun r a => r * x + a) 0

/-- app.py get_poly_derivative: n = len(coeffs) - 1; if n < 1 return [0.0];
    else the i-th derivative coefficient is coeffs[i] * (n - i) for i in range(n). -/
def get_poly_derivative (coeffs : List ℚ) : List ℚ :=
  let n := coeffs.length - 1
  if n < 1 then [0]
  else (List.range n).map (fun i => coeffs.getD i 0 * ((n - i : ℕ) : ℚ))

/-- Keys of an iteration row (Python dict keys used by solve_method). -/
inductive RowKey where
  | iter
  | a
  | b
  | x_val
  | f_x
  | error
  | x_prev
  | x_curr
  | df_x
deriving DecidableEq, Repr

/-- An iteration row: a Python dict from field name to numeric value,
    represented as an association list in insertion order (keys are distinct). -/
abbrev Row := List (RowKey × ℚ)

/-- Dict lookup row[key], as an Option (none models a Python KeyError site). -/
def rowGet : Row → RowKey → Option ℚ
  | [], _ => none
  | (k, v) :: r, f => if k = f then some v else rowGet r f

/-- The mutable local variables of solve_method during its loop.
    x0, x1, currX (curr_x), prevX (prev_x) are the Python locals of app.py
    lines 40-42 (curr_b is assigned but never read, so it is omitted).
    stopIndex is a specification-only ghost field recording the value of the
    Python loop variable i at the moment the loop exits (0 when the loop body
    never ran); it is written alongside the source's own updates and read by
    no computation of the engine. -/
structure LoopState where
  x0 : ℚ
  x1 : ℚ
  currX : ℚ
  prevX : ℚ
  iterations : List Row
  root : Option ℚ
  converged : Bool
  errorMsg : Option String
  stopIndex : ℕ
deriving DecidableEq, Repr

/-- Outcome of one iteration of the solve_method loop body:
    err   = set error_msg and break (row NOT appended);
    conv  = set root/converged, append the row, and break;
    next  = fall through to the append at app.py line 185 and continue. -/
inductive StepOut where
  | err (msg : String)
  | conv (row : Row) (root : ℚ)
  | next (row : Row) (st : LoopState)
deriving DecidableEq, Repr

def stepConv : StepOut → Bool
  | .conv _ _ => true
  | _ => false

/-- app.py lines 56-57 and 81-82: the bracketing precondition message. -/
def bracketMsg : String := "Root not bracketed. f(a) and f(b) must have opposite signs."

/-- The Regula Falsi interpolation point of app.py line 85. -/
def regulaX (c : List ℚ) (x0 x1 : ℚ) : ℚ :=
  (x0 * eval_poly c x1 - x1 * eval_poly c x0) / (eval_poly c x1 - eval_poly c x0)

/-- app.py solve_method, bisection branch (lines 51-75). -/
def bisectionStep (c : List ℚ) (tol : ℚ) (i : ℕ) (st : LoopState) : StepOut :=
  let fa := eval_poly c st.x0
  let fb := eval_poly c st.x1
  if fa * fb ≥ 0 then .err bracketMsg
  else
    let x_mid := (st.x0 + st.x1) / 2
    let fx_mid := eval_poly c x_mid
    let error := |st.x1 - st.x0|
    let row : Row := [(RowKey.iter, (i : ℚ)), (RowKey.a, st.x0), (RowKey.b, st.x1),
      (RowKey.x_val, x_mid), (RowKey.f_x, fx_mid), (RowKey.error, error)]
    if |fx_mid| < tol ∨ error < tol then .conv row x_mid
    else if fa * fx_mid < 0 then .next row { st with x1 := x_mid }
    else .next row { st with x0 := x_mid }

/-- app.py solve_method, regula_falsi branch (lines 77-101). -/
def regulaFalsiStep (c : List ℚ) (tol : ℚ) (i : ℕ) (st : LoopState) : StepOut :=
  let fa := eval_poly c st.x0
  let fb := eval_poly c st.x1
  if fa * fb ≥ 0 then .err bracketMsg
  else
    let x_new := (st.x0 * fb - st.x1 * fa) / (fb - fa)
    let fx_new := eval_poly c x_new
    let error := if 1 < i then |x_new - st.prevX| else |st.x1 - st.x0|
    let row : Row := [(RowKey.iter, (i : ℚ)), (RowKey.a, st.x0), (RowKey.b, st.x1),
      (RowKey.x_val, x_new), (RowKey.f_x, fx_new), (RowKey.error, error)]
    if |fx_new| < tol then .conv row x_new
    else
      let st1 := if fa * fx_new < 0 then { st with x1 := x_new } else { st with x0 := x_new }
      .next row { st1 with prevX := x_new }

/-- app.py solve_method, secant branch (lines 103-125). -/
def secantStep (c : List ℚ) (tol : ℚ) (i : ℕ) (st : LoopState) : StepOut :=
  let f0 := eval_poly c st.x0
  let f1 := eval_poly c st.x1
  if f1 - f0 = 0 then .err "Division by zero (f(x1) - f(x0) = 0)."
  else
    let x2 := st.x1 - (f1 * (st.x1 - st.x0)) / (f1 - f0)
    let error := |x2 - st.x1|
    let f2 := eval_poly c x2
    let row : Row := [(RowKey.iter, (i : ℚ)), (RowKey.x_prev, st.x0), (RowKey.x_curr, st.x1),
      (RowKey.x_val, x2), (RowKey.f_x, f2), (RowKey.error, error)]
    if error < tol then .conv row x2
    else .next row { st with x0 := st.x1, x1 := x2 }

/-- app.py solve_method, newton branch (lines 127-146); d is the precomputed
    derivative coefficient list. -/
def newtonStep (c d : List ℚ) (tol : ℚ) (i : ℕ) (st : LoopState) : StepOut :=
  let fx := eval_poly c st.currX
  let dfx := eval_poly d st.currX
  if dfx = 0 then .err "Derivative is zero."
  else
    let x_next := st.currX - fx / dfx
    let error := |x_next - st.currX|
    let row : Row := [(RowKey.iter, (i : ℚ)), (RowKey.x_curr, st.currX), (RowKey.f_x, fx),
      (RowKey.df_x, dfx), (RowKey.x_val, x_next), (RowKey.error, error)]
    if error < tol then .conv row x_next
    else .next row { st with currX := x_next }

/-- app.py solve_method, fixed_point branch (lines 148-161): coeffs represent g. -/
def fixedPointStep (c : List ℚ) (tol : ℚ) (i : ℕ) (st : LoopState) : StepOut :=
  let x_next := eval_poly c st.currX
  let error := |x_next - st.currX|
  let row : Row := [(RowKey.iter, (i : ℚ)), (RowKey.x_curr, st.currX),
    (RowKey.x_val, x_next), (RowKey.error, error)]
  if error < tol then .conv row x_next
  else .next row { st with currX := x_next }

/-- app.py solve_method, modified_secant branch (lines 163-183). -/
def modSecantStep (c : List ℚ) (delta tol : ℚ) (i : ℕ) (st : LoopState) : StepOut :=
  let fx := eval_poly c st.currX
  let fx_delta := eval_poly c (st.currX + delta * st.currX)
  let denom := fx_delta - fx
  if denom = 0 then .err "Division by zero in Mod Secant."
  else
    let x_next := st.currX - (delta * st.currX * fx) / denom
    let error := |x_next - st.currX|
    let row : Row := [(RowKey.iter, (i : ℚ)), (RowKey.x_curr, st.currX), (RowKey.f_x, fx),
      (RowKey.x_val, x_next), (RowKey.error, error)]
    if error < tol then .conv row x_next
    else .next row { st with currX := x_next }

/-- The if/elif dispatch of app.py solve_method (lines 51-183). A method name
    matching no branch leaves the row holding only the iteration index. -/
def solveStep (method : String) (c d : List ℚ) (delta tol : ℚ) (i : ℕ) (st : LoopState) : StepOut :=
  if method = "bisection" then bisectionStep c tol i st
  else if method = "regula_falsi" then regulaFalsiStep c tol i st
  else if method = "secant" then secantStep c tol i st
  else if method = "newton" then newtonStep c d tol i st
  else if method = "fixed_point" then fixedPointStep c tol i st
  else if method = "modified_secant" then modSecantStep c delta tol i st
  else .next [(RowKey.iter, (i : ℚ))] st

/-- The for-loop of app.py solve_method (lines 47-189): i runs from 1 to max_iter. -/
def solveMethodLoop (method : String) (c d : List ℚ) (delta tol : ℚ) :
    ℕ → ℕ → LoopState → LoopState
  | 0, _, st => st
  | fuel + 1, i, st =>
    match solveStep method c d delta tol i st with
    | .err msg => { st with errorMsg := some msg, stopIndex := i }
    | .conv row root =>
        { st with iterations := st.iterations ++ [row], root := some root,
                  converged := true, stopIndex := i }
    | .next row st1 =>
        solveMethodLoop method c d delta tol fuel (i + 1)
          { st1 with iterations := st1.iterations ++ [row], stopIndex := i }

/-- solve_method up to the end of its loop: initial locals of app.py lines 34-45
    plus the loop of lines 47-189. -/
def runLoop (method : String) (c : List ℚ) (x0 x1 delta tol : ℚ) (maxIter : ℕ) : LoopState :=
  let d := if method = "newton" then get_poly_derivative c else []
  solveMethodLoop method c d delta tol maxIter 1
    { x0 := x0, x1 := x1, currX := x0, prevX := x0,
      iterations := [], root := none, converged := false, errorMsg := none, stopIndex := 0 }

/-- The tuple returned by app.py solve_method line 195. -/
structure PyResult where
  trace : List Row
  root : Option ℚ
  converged : Bool
  errorMsg : Option String
deriving DecidableEq, Repr

/-- A solve_method call either returns normally or raises (KeyError from a
    missing dict field, IndexError from indexing an empty list). -/
inductive SolveOut where
  | ok (r : PyResult)
  | keyError
  | indexError
deriving DecidableEq, Repr

/-- app.py lines 191-195: if not converged and no error message,
    root = iterations[-1]['x_val'] (which may raise) and
    error_msg = "Max iterations reached.". -/
def finishSolve (st : LoopState) : SolveOut :=
  if st.converged = false ∧ st.errorMsg = none then
    match st.iterations.getLast? with
    | none => .indexError
    | some row =>
      match rowGet row RowKey.x_val with
      | none => .keyError
      | some v =>
          .ok { trace := st.iterations, root := some v, converged := st.converged,
                errorMsg := some "Max iterations reached." }
  else
    .ok { trace := st.iterations, root := st.root, converged := st.converged,
          errorMsg := st.errorMsg }

/-- app.py solve_method (lines 33-195). -/
def solve_method (method : String) (c : List ℚ) (x0 x1 delta tol : ℚ) (maxIter : ℕ) : SolveOut :=
  finishSolve (runLoop method c x0 x1 delta tol maxIter)

def outTrace : SolveOut → List Row
  | .ok r => r.trace
  | _ => []

def outRoot : SolveOut → Option ℚ
  | .ok r => r.root
  | _ => none

def outConverged : SolveOut → Bool
  | .ok r => r.converged
  | _ => false

def outMsg : SolveOut → Option String
  | .ok r => r.errorMsg
  | _ => none

/- ---------- ZOF_CLI.py ---------- -/

/-- Observable outcome of ZOF_CLI.py solve_loop: converged root after i
    iterations, a division-by-zero abort after itersDone completed iterations,
    or max-iteration exhaustion carrying the last computed estimate
    (none when no iteration ever ran). -/
inductive CLIOutcome where
  | converged (root : ℚ) (iters : ℕ)
  | divZero (itersDone : ℕ)
  | maxOut (lastRoot : Option ℚ)
deriving DecidableEq, Repr

/-- ZOF_CLI.py solve_loop (lines 23-42), printing abstracted away: a step
    yields (new_state, error, root estimate) or raises ZeroDivisionError
    (modelled as Except.error ()).  Line 37 sets f_val = |f(root)| only when
    coeffs is truthy; for a falsy coeffs (None, or the empty list) it sets
    f_val = float('inf'), and an infinite f_val fails the f_val < tol test
    against every finite tolerance, so the secondary test fires exactly when
    the coefficient list is nonempty and |f(root)| < tol.  (The coeffs=None
    default behaves like the empty list here, so c : List rationals with the
    nonemptiness guard covers both.) -/
def solve_loop {σ : Type} (stepf : σ → Except Unit (σ × ℚ × ℚ)) (tol : ℚ) (c : List ℚ) :
    ℕ → ℕ → Option ℚ → σ → CLIOutcome
  | 0, _, last, _ => .maxOut last
  | fuel + 1, i, _, s =>
    match stepf s with
    | .error _ => .divZero (i - 1)
    | .ok (s1, err, root) =>
      if err < tol ∨ (c ≠ [] ∧ |eval_poly c root| < tol) then .converged root i
      else solve_loop stepf tol c fuel (i + 1) (some root) s1

/-- ZOF_CLI.py bracketing_method.step (lines 53-60); calcX is the method's
    calc_x lambda, which may raise ZeroDivisionError. -/
def bracketStep (calcX : ℚ → ℚ → ℚ → ℚ → Except Unit ℚ) (c : List ℚ)
    (s : ℚ × ℚ) : Except Unit ((ℚ × ℚ) × ℚ × ℚ) :=
  let fa := eval_poly c s.1
  let fb := eval_poly c s.2
  match calcX s.1 s.2 fa fb with
  | .error e => .error e
  | .ok xm =>
    let fxm := eval_poly c xm
    let s1 := if fa * fxm < 0 then (s.1, xm) else (xm, s.2)
    .ok (s1, |s.2 - s.1|, xm)

/-- ZOF_CLI.py main, method 1: the Bisection calc_x lambda. -/
def bisectCalc : ℚ → ℚ → ℚ → ℚ → Except Unit ℚ :=
  fun a b _ _ => .ok ((a + b) / 2)

/-- ZOF_CLI.py main, method 2: the Regula Falsi calc_x lambda; its division
    raises ZeroDivisionError when fb - fa = 0. -/
def regulaCalc : ℚ → ℚ → ℚ → ℚ → Except Unit ℚ :=
  fun a b fa fb => if fb - fa = 0 then .error () else .ok ((a * fb - b * fa) / (fb - fa))

/-- ZOF_CLI.py bracketing_method (lines 45-62): a single precondition check
    before the loop; none models the printed precondition error and early
    return of line 51. -/
def bracketing_method (calcX : ℚ → ℚ → ℚ → ℚ → Except Unit ℚ) (c : List ℚ)
    (a b tol : ℚ) (maxIter : ℕ) : Option CLIOutcome :=
  if eval_poly c a * eval_poly c b ≥ 0 then none
  else some (solve_loop (bracketStep calcX c) tol c maxIter 1 none (a, b))

/-- ZOF_CLI.py open_method.step (lines 71-75). -/
def openStep (logic : ℚ → Except Unit ℚ) (s : ℚ) : Except Unit (ℚ × ℚ × ℚ) :=
  match logic s with
  | .error e => .error e
  | .ok xn => .ok (xn, |xn - s|, xn)

/-- ZOF_CLI.py main, method 4 step logic: x - f(x)/f'(x); the Python division
    raises ZeroDivisionError when f'(x) = 0. -/
def newtonLogic (c d : List ℚ) (x : ℚ) : Except Unit ℚ :=
  if eval_poly d x = 0 then .error () else .ok (x - eval_poly c x / eval_poly d x)

/-- ZOF_CLI.py main, method 5 step logic: x_next = g(x). -/
def fixedPointLogic (c : List ℚ) (x : ℚ) : Except Unit ℚ :=
  .ok (eval_poly c x)

/-- ZOF_CLI.py main, method 4 setup lambda: derivative coefficients
    [c[i]*(len(c)-1-i) for i in range(len(c)-1)]. -/
def cliNewtonDeriv (c : List ℚ) : List ℚ :=
  (List.range (c.length - 1)).map (fun i => c.getD i 0 * ((c.length - 1 - i : ℕ) : ℚ))

/-- ZOF_CLI.py open_method (lines 64-77): run the open-method loop. -/
def open_method_run (logic : ℚ → Except Unit ℚ) (c : List ℚ) (x0 tol : ℚ)
    (maxIter : ℕ) : CLIOutcome :=
  solve_loop (openStep logic) tol c maxIter 1 none x0

end ZOF

namespace ZOF

attribute [local semireducible] Rat.add Rat.mul Rat.inv Rat.sub

deriving instance DecidableEq for Except

/- ---------- Claim theorems ---------- -/

/-- Claim C5: invoking a bracketing method of solve_method on an interval with
    no sign change (coefficients [1, 0, 2] on a=1, b=2) returns converged=false,
    the precondition-violation message, no root, and an empty trace. -/
theorem C5_thm :
    solve_method "bisection" [1, 0, 2] 1 2 0 (1/10000) 10 =
      .ok ⟨[], none, false, some bracketMsg⟩ ∧
    solve_method "regula_falsi" [1, 0, 2] 1 2 0 (1/10000) 10 =
      .ok ⟨[], none, false, some bracketMsg⟩ ∧
    bracketMsg = "Root not bracketed. f(a) and f(b) must have opposite signs." := by
  decide

/-- Claim C6: Newton-Raphson on f(x)=x^2 (coefficients [1, 0, 0]) at x0=0 has
    f'(x0)=0 and returns the division-by-zero error ("Derivative is zero.")
    with an empty trace and no root in the web engine, and the ZeroDivisionError
    outcome after zero completed iterations in the CLI engine. -/
theorem C6_thm :
    solve_method "newton" [1, 0, 0] 0 0 0 (1/1000) 10 =
      .ok ⟨[], none, false, some "Derivative is zero."⟩ ∧
    open_method_run (newtonLogic [1, 0, 0] (cliNewtonDeriv [1, 0, 0]))
      [1, 0, 0] 0 (1/1000) 10 = .divZero 0 := by
  decide

/-- Claim C1 counterexample: for Regula Falsi with coefficients [1000, 0, -2000]
    on (1, 2) with tolerance 50, iteration 1 reports error magnitude 1 < 50,
    yet the loop does not stop there: the trace has 2 rows and the run converges
    only at iteration 2 (root 7/5).  So the web engine's Regula Falsi does not
    stop converged when its error magnitude is below tolerance. -/
theorem C1_counterexample :
    rowGet ((outTrace (solve_method "regula_falsi" [1000, 0, -2000] 1 2 0 50 10)).getD 0 [])
      RowKey.error = some 1 ∧
    (1 : ℚ) < 50 ∧
    (outTrace (solve_method "regula_falsi" [1000, 0, -2000] 1 2 0 50 10)).length = 2 ∧
    outRoot (solve_method "regula_falsi" [1000, 0, -2000] 1 2 0 50 10) = some (7/5) := by
  decide

/-- Claim C2 counterexample: bisection on the unbracketed input [1, 0, 2], a=1,
    b=2 stops by fatal error during iteration 1 (stopIndex = 1) but the trace is
    empty, so the trace length does not equal the iteration index at which the
    loop stopped. -/
theorem C2_counterexample :
    (runLoop "bisection" [1, 0, 2] 1 2 0 (1/1000) 5).iterations.length = 0 ∧
    (runLoop "bisection" [1, 0, 2] 1 2 0 (1/1000) 5).stopIndex = 1 ∧
    (runLoop "bisection" [1, 0, 2] 1 2 0 (1/1000) 5).errorMsg.isSome = true ∧
    (runLoop "bisection" [1, 0, 2] 1 2 0 (1/1000) 5).iterations.length ≠
      (runLoop "bisection" [1, 0, 2] 1 2 0 (1/1000) 5).stopIndex := by
  decide

/-- Claim C3 counterexample: in the CLI engine, bisection on f(x)=x-1
    (coefficients [1, -1]) with bracket (0, 2) and tolerance 0 updates the
    bracket to (1, 2) at iteration 1, where f(1)*f(2) = 0 >= 0 violates the
    sign-change condition; the run nevertheless continues to max-iteration
    exhaustion with no error, so the CLI does not re-check the condition after
    bracket updates. -/
theorem C3_counterexample :
    bracketStep bisectCalc [1, -1] (0, 2) = .ok ((1, 2), 2, 1) ∧
    eval_poly [1, -1] 1 * eval_poly [1, -1] 2 ≥ 0 ∧
    bracketing_method bisectCalc [1, -1] 0 2 0 3 = some (.maxOut (some (7/4))) := by
  decide

/-- Claim C4 counterexample: Regula Falsi on x^3 - 3x + 1 (coefficients
    [1, 0, -3, 1]) with bracket (-3, 3) has row-2 error 323/1410 and row-3
    error 27581293/95307540, and the latter is strictly larger: the reported
    error magnitude increases from iteration 2 to iteration 3. -/
theorem C4_counterexample :
    rowGet ((outTrace (solve_method "regula_falsi" [1, 0, -3, 1] (-3) 3 0 (1/1000000) 3)).getD 1 [])
      RowKey.error = some (323/1410) ∧
    rowGet ((outTrace (solve_method "regula_falsi" [1, 0, -3, 1] (-3) 3 0 (1/1000000) 3)).getD 2 [])
      RowKey.error = some (27581293/95307540) ∧
    (323/1410 : ℚ) < 27581293/95307540 ∧
    (outTrace (solve_method "regula_falsi" [1, 0, -3, 1] (-3) 3 0 (1/1000000) 3)).length = 3 := by
  decide

/-- Claim C7 counterexample: an exhausted run (fixed point g(x)=x+1, 3
    iterations) stops with converged=false and error message
    "Max iterations reached.", which is not the string "max iterations reached"
    stated by the claim. -/
theorem C7_counterexample :
    outConverged (solve_method "fixed_point" [1, 1] 0 0 0 (1/2) 3) = false ∧
    outMsg (solve_method "fixed_point" [1, 1] 0 0 0 (1/2) 3) =
      some "Max iterations reached." ∧
    outMsg (solve_method "fixed_point" [1, 1] 0 0 0 (1/2) 3) ≠
      some "max iterations reached" := by
  decide

/-- Claim C10: in the CLI engine, the secondary convergence test |f(x)| < tol
    is applied to Fixed Point as well, with the supplied (nonempty, per the
    data-model invariant) coefficient list defining g: whenever
    |g(g(x))| = |g(x_next)| < tol, the loop reports convergence at the current
    iteration even though the step error |x_next - x| is at or above
    tolerance. -/
theorem C10_thm (c : List ℚ) (x tol : ℚ) (fuel j : ℕ) (last : Option ℚ)
    (hc : c ≠ [])
    (hf : |eval_poly c (eval_poly c x)| < tol)
    (herr : tol ≤ |eval_poly c x - x|) :
    solve_loop (openStep (fixedPointLogic c)) tol c (fuel + 1) j last x =
      .converged (eval_poly c x) j := by
  simp only [solve_loop, openStep, fixedPointLogic]
  rw [if_pos (Or.inr ⟨hc, hf⟩)]

/-- Witness for C10_thm: g(x) = (x-3)^2 at x = 1 with tolerance 2; the step
    error is 3 but |g(g(1))| = |g(4)| = 1 < 2, so the loop converges at once. -/
theorem C10_witness :
    ([1, -6, 9] : List ℚ) ≠ [] ∧
    |eval_poly [1, -6, 9] (eval_poly [1, -6, 9] 1)| < 2 ∧
    (2 : ℚ) ≤ |eval_poly [1, -6, 9] 1 - 1| ∧
    solve_loop (openStep (fixedPointLogic [1, -6, 9])) 2 [1, -6, 9] (0 + 1) 1 none 1 =
      .converged (eval_poly [1, -6, 9] 1) 1 :=
  ⟨by decide, by decide, by decide,
    C10_thm [1, -6, 9] 1 2 0 1 none (by decide) (by decide) (by decide)⟩

/-- Claim C8: for coefficients of degree n >= 1, get_poly_derivative returns
    exactly n coefficients, the i-th being coeffs[i] * (n - i); for a degree-0
    input it returns [0]. -/
theorem C8_thm (coeffs : List ℚ) (n : ℕ) (hn : coeffs.length = n + 1) :
    (1 ≤ n → (get_poly_derivative coeffs).length = n ∧
      ∀ i, i < n → (get_poly_derivative coeffs).getD i 0 =
        coeffs.getD i 0 * ((n - i : ℕ) : ℚ)) ∧
    (n = 0 → get_poly_derivative coeffs = [0]) := by
  simp only [get_poly_derivative]
  rw [hn, Nat.add_sub_cancel]
  constructor
  · intro h1
    rw [if_neg (by omega)]
    refine ⟨by simp, ?_⟩
    intro i hi
    rw [List.getD_eq_getElem?_getD]
    simp [List.getElem?_map, List.getElem?_range, hi]
  · intro h0
    subst h0
    simp

/-- Witness for C8_thm at coefficients [3, 2, 1] (degree 2). -/
theorem C8_witness :
    ([3, 2, 1] : List ℚ).length = 2 + 1 ∧
    ((1 ≤ 2 → (get_poly_derivative [3, 2, 1]).length = 2 ∧
      ∀ i, i < 2 → (get_poly_derivative ([3, 2, 1] : List ℚ)).getD i 0 =
        ([3, 2, 1] : List ℚ).getD i 0 * ((2 - i : ℕ) : ℚ)) ∧
    (2 = 0 → get_poly_derivative ([3, 2, 1] : List ℚ) = [0])) :=
  ⟨by decide, C8_thm [3, 2, 1] 2 (by decide)⟩

/-- Claim C7 (amended): when the loop finishes with converged=false and no
    fatal error message, solve_method returns converged=false, root equal to
    the x_val of the last trace row (the last computed estimate), and the
    error message "Max iterations reached.". -/
theorem C7_thm (m : String) (c : List ℚ) (x0 x1 δ t : ℚ) (n : ℕ) (row : Row) (v : ℚ)
    (hc : (runLoop m c x0 x1 δ t n).converged = false)
    (he : (runLoop m c x0 x1 δ t n).errorMsg = none)
    (hl : (runLoop m c x0 x1 δ t n).iterations.getLast? = some row)
    (hv : rowGet row RowKey.x_val = some v) :
    solve_method m c x0 x1 δ t n =
      .ok ⟨(runLoop m c x0 x1 δ t n).iterations, some v, false,
           some "Max iterations reached."⟩ := by
  simp only [solve_method, finishSolve, hc, he, hl, hv]
  simp

/-- Witness for C7_thm: fixed point g(x) = x + 1 from x0 = 0, tolerance 1/2,
    3 iterations; the run exhausts and reports root 3 (the last x_val). -/
theorem C7_witness :
    (runLoop "fixed_point" [1, 1] 0 0 0 (1/2) 3).converged = false ∧
    (runLoop "fixed_point" [1, 1] 0 0 0 (1/2) 3).errorMsg = none ∧
    (runLoop "fixed_point" [1, 1] 0 0 0 (1/2) 3).iterations.getLast? =
      some [(RowKey.iter, 3), (RowKey.x_curr, 2), (RowKey.x_val, 3), (RowKey.error, 1)] ∧
    rowGet [(RowKey.iter, 3), (RowKey.x_curr, 2), (RowKey.x_val, 3), (RowKey.error, 1)]
      RowKey.x_val = some 3 ∧
    solve_method "fixed_point" [1, 1] 0 0 0 (1/2) 3 =
      .ok ⟨(runLoop "fixed_point" [1, 1] 0 0 0 (1/2) 3).iterations, some 3, false,
           some "Max iterations reached."⟩ :=
  ⟨by decide, by decide, by decide, by decide,
    C7_thm "fixed_point" [1, 1] 0 0 0 (1/2) 3
      [(RowKey.iter, 3), (RowKey.x_curr, 2), (RowKey.x_val, 3), (RowKey.error, 1)] 3
      (by decide) (by decide) (by decide) (by decide)⟩

/-- Claim C3 (amended): in the web engine both bracketing branches check the
    sign-change condition at the top of every iteration and a failing check
    terminates the loop at once with the precondition error and no new row;
    in the CLI engine the condition is checked once, before the first step
    (bracketing_method line 51), returning the precondition error without
    entering the loop. -/
theorem C3_thm (c d : List ℚ) (δ t : ℚ) (i : ℕ) (st : LoopState) (n : ℕ)
    (h : eval_poly c st.x0 * eval_poly c st.x1 ≥ 0) :
    bisectionStep c t i st = .err bracketMsg ∧
    regulaFalsiStep c t i st = .err bracketMsg ∧
    solveMethodLoop "bisection" c d δ t (n + 1) i st =
      { st with errorMsg := some bracketMsg, stopIndex := i } ∧
    solveMethodLoop "regula_falsi" c d δ t (n + 1) i st =
      { st with errorMsg := some bracketMsg, stopIndex := i } ∧
    bracketing_method bisectCalc c st.x0 st.x1 t n = none ∧
    bracketing_method regulaCalc c st.x0 st.x1 t n = none := by
  have hb : bisectionStep c t i st = .err bracketMsg := by
    simp only [bisectionStep]
    rw [if_pos h]
  have hr : regulaFalsiStep c t i st = .err bracketMsg := by
    simp only [regulaFalsiStep]
    rw [if_pos h]
  refine ⟨hb, hr, ?_, ?_, ?_, ?_⟩
  · rw [solveMethodLoop,
      show solveStep "bisection" c d δ t i st = bisectionStep c t i st from rfl, hb]
  · rw [solveMethodLoop,
      show solveStep "regula_falsi" c d δ t i st = regulaFalsiStep c t i st from rfl, hr]
  · simp only [bracketing_method]
    rw [if_pos h]
  · simp only [bracketing_method]
    rw [if_pos h]

/-- Witness for C3_thm: coefficients [1, 0, 2] (always positive) with a=1, b=2. -/
theorem C3_witness :
    eval_poly [1, 0, 2] (1 : ℚ) * eval_poly [1, 0, 2] 2 ≥ 0 ∧
    (bisectionStep [1, 0, 2] (1/10000) 1 ⟨1, 2, 1, 1, [], none, false, none, 0⟩ =
        .err bracketMsg ∧
      regulaFalsiStep [1, 0, 2] (1/10000) 1 ⟨1, 2, 1, 1, [], none, false, none, 0⟩ =
        .err bracketMsg ∧
      solveMethodLoop "bisection" [1, 0, 2] [] 0 (1/10000) (3 + 1) 1
          ⟨1, 2, 1, 1, [], none, false, none, 0⟩ =
        ⟨1, 2, 1, 1, [], none, false, some bracketMsg, 1⟩ ∧
      solveMethodLoop "regula_falsi" [1, 0, 2] [] 0 (1/10000) (3 + 1) 1
          ⟨1, 2, 1, 1, [], none, false, none, 0⟩ =
        ⟨1, 2, 1, 1, [], none, false, some bracketMsg, 1⟩ ∧
      bracketing_method bisectCalc [1, 0, 2] 1 2 (1/10000) 3 = none ∧
      bracketing_method regulaCalc [1, 0, 2] 1 2 (1/10000) 3 = none) :=
  ⟨by decide,
    C3_thm [1, 0, 2] [] 0 (1/10000) 1 ⟨1, 2, 1, 1, [], none, false, none, 0⟩ 3 (by decide)⟩

/-- Claim C1 (amended): in the web engine, Bisection stops converged exactly
    when |f(x_mid)| < tol or |b - a| < tol; Regula Falsi stops converged
    exactly when |f(x_new)| < tol (its error magnitude is not consulted);
    Secant, Newton, Fixed Point and Modified Secant stop converged exactly
    when the step error < tol.  In the CLI engine, solve_loop stops converged
    at the current iteration whenever the step error is below tolerance, in
    particular for Regula Falsi. -/
theorem C1_thm (c d : List ℚ) (δ t : ℚ) (i : ℕ) (st : LoopState)
    (s s1 : ℚ × ℚ) (err root : ℚ) (fuel j : ℕ) (last : Option ℚ)
    (hbr : eval_poly c st.x0 * eval_poly c st.x1 < 0)
    (hsec : eval_poly c st.x1 - eval_poly c st.x0 ≠ 0)
    (hnew : eval_poly d st.currX ≠ 0)
    (hmod : eval_poly c (st.currX + δ * st.currX) - eval_poly c st.currX ≠ 0)
    (hstep : bracketStep regulaCalc c s = Except.ok (s1, err, root))
    (herr : err < t) :
    (stepConv (bisectionStep c t i st) = true ↔
      |eval_poly c ((st.x0 + st.x1) / 2)| < t ∨ |st.x1 - st.x0| < t) ∧
    (stepConv (regulaFalsiStep c t i st) = true ↔
      |eval_poly c (regulaX c st.x0 st.x1)| < t) ∧
    (stepConv (secantStep c t i st) = true ↔
      |st.x1 - eval_poly c st.x1 * (st.x1 - st.x0) /
        (eval_poly c st.x1 - eval_poly c st.x0) - st.x1| < t) ∧
    (stepConv (newtonStep c d t i st) = true ↔
      |st.currX - eval_poly c st.currX / eval_poly d st.currX - st.currX| < t) ∧
    (stepConv (fixedPointStep c t i st) = true ↔
      |eval_poly c st.currX - st.currX| < t) ∧
    (stepConv (modSecantStep c δ t i st) = true ↔
      |st.currX - δ * st.currX * eval_poly c st.currX /
        (eval_poly c (st.currX + δ * st.currX) - eval_poly c st.currX) - st.currX| < t) ∧
    solve_loop (bracketStep regulaCalc c) t c (fuel + 1) j last s = .converged root j := by
  have hge : ¬ eval_poly c st.x0 * eval_poly c st.x1 ≥ 0 := not_le.mpr hbr
  refine ⟨?_, ?_, ?_, ?_, ?_, ?_, ?_⟩
  · simp only [bisectionStep]
    rw [if_neg hge]
    by_cases hcv : |eval_poly c ((st.x0 + st.x1) / 2)| < t ∨ |st.x1 - st.x0| < t
    · rw [if_pos hcv]
      exact iff_of_true rfl hcv
    · rw [if_neg hcv]
      exact iff_of_false (by split_ifs <;> simp [stepConv]) hcv
  · simp only [regulaFalsiStep, regulaX]
    rw [if_neg hge]
    by_cases hcv : |eval_poly c ((st.x0 * eval_poly c st.x1 - st.x1 * eval_poly c st.x0) /
        (eval_poly c st.x1 - eval_poly c st.x0))| < t
    · rw [if_pos hcv]
      exact iff_of_true rfl hcv
    · rw [if_neg hcv]
      exact iff_of_false (by split_ifs <;> simp [stepConv]) hcv
  · simp only [secantStep]
    rw [if_neg hsec]
    by_cases hcv : |st.x1 - eval_poly c st.x1 * (st.x1 - st.x0) /
        (eval_poly c st.x1 - eval_poly c st.x0) - st.x1| < t
    · rw [if_pos hcv]
      exact iff_of_true rfl hcv
    · rw [if_neg hcv]
      exact iff_of_false (by simp [stepConv]) hcv
  · simp only [newtonStep]
    rw [if_neg hnew]
    by_cases hcv : |st.currX - eval_poly c st.currX / eval_poly d st.currX - st.currX| < t
    · rw [if_pos hcv]
      exact iff_of_true rfl hcv
    · rw [if_neg hcv]
      exact iff_of_false (by simp [stepConv]) hcv
  · simp only [fixedPointStep]
    by_cases hcv : |eval_poly c st.currX - st.currX| < t
    · rw [if_pos hcv]
      exact iff_of_true rfl hcv
    · rw [if_neg hcv]
      exact iff_of_false (by simp [stepConv]) hcv
  · simp only [modSecantStep]
    rw [if_neg hmod]
    by_cases hcv : |st.currX - δ * st.currX * eval_poly c st.currX /
        (eval_poly c (st.currX + δ * st.currX) - eval_poly c st.currX) - st.currX| < t
    · rw [if_pos hcv]
      exact iff_of_true rfl hcv
    · rw [if_neg hcv]
      exact iff_of_false (by simp [stepConv]) hcv
  · simp only [solve_loop]
    rw [hstep]
    exact if_pos (Or.inl herr)

/-- Witness for C1_thm at f(x) = x^2 - 2 on the state (x0, x1) = (1, 2),
    derivative coefficients [2, 0], delta 1/10, tolerance 2, and the CLI
    Regula Falsi step from (1, 2). -/
theorem C1_witness :
    (eval_poly [1, 0, -2] (1 : ℚ) * eval_poly [1, 0, -2] 2 < 0 ∧
     eval_poly [1, 0, -2] (2 : ℚ) - eval_poly [1, 0, -2] 1 ≠ 0 ∧
     eval_poly [2, 0] (1 : ℚ) ≠ 0 ∧
     eval_poly [1, 0, -2] ((1 : ℚ) + 1/10 * 1) - eval_poly [1, 0, -2] 1 ≠ 0 ∧
     bracketStep regulaCalc [1, 0, -2] (1, 2) = Except.ok ((4/3, 2), 1, 4/3) ∧
     (1 : ℚ) < 2) ∧
    ((stepConv (bisectionStep [1, 0, -2] 2 1 ⟨1, 2, 1, 1, [], none, false, none, 0⟩) = true ↔
       |eval_poly [1, 0, -2] (((1 : ℚ) + 2) / 2)| < 2 ∨ |(2 : ℚ) - 1| < 2) ∧
     (stepConv (regulaFalsiStep [1, 0, -2] 2 1 ⟨1, 2, 1, 1, [], none, false, none, 0⟩) = true ↔
       |eval_poly [1, 0, -2] (regulaX [1, 0, -2] 1 2)| < 2) ∧
     (stepConv (secantStep [1, 0, -2] 2 1 ⟨1, 2, 1, 1, [], none, false, none, 0⟩) = true ↔
       |(2 : ℚ) - eval_poly [1, 0, -2] 2 * (2 - 1) /
         (eval_poly [1, 0, -2] 2 - eval_poly [1, 0, -2] 1) - 2| < 2) ∧
     (stepConv (newtonStep [1, 0, -2] [2, 0] 2 1 ⟨1, 2, 1, 1, [], none, false, none, 0⟩) = true ↔
       |(1 : ℚ) - eval_poly [1, 0, -2] 1 / eval_poly [2, 0] 1 - 1| < 2) ∧
     (stepConv (fixedPointStep [1, 0, -2] 2 1 ⟨1, 2, 1, 1, [], none, false, none, 0⟩) = true ↔
       |eval_poly [1, 0, -2] (1 : ℚ) - 1| < 2) ∧
     (stepConv (modSecantStep [1, 0, -2] (1/10) 2 1 ⟨1, 2, 1, 1, [], none, false, none, 0⟩) = true ↔
       |(1 : ℚ) - 1/10 * 1 * eval_poly [1, 0, -2] 1 /
         (eval_poly [1, 0, -2] ((1 : ℚ) + 1/10 * 1) - eval_poly [1, 0, -2] 1) - 1| < 2) ∧
     solve_loop (bracketStep regulaCalc [1, 0, -2]) 2 [1, 0, -2] (0 + 1) 1 none (1, 2) =
       .converged (4/3) 1) :=
  ⟨⟨by decide, by decide, by decide, by decide, by decide, by decide⟩,
    C1_thm [1, 0, -2] [2, 0] (1/10) 2 1 ⟨1, 2, 1, 1, [], none, false, none, 0⟩
      (1, 2) (4/3, 2) 1 (4/3) 0 1 none
      (by decide) (by decide) (by decide) (by decide) (by decide) (by decide)⟩

/-- A solve_method loop step that falls through to the append at line 185
    leaves iterations, converged, error_msg (and the ghost stop index)
    untouched: only the numeric locals change. -/
theorem solveStep_next_fields (m : String) (c d : List ℚ) (δ t : ℚ) (i : ℕ)
    (st st1 : LoopState) (row : Row)
    (h : solveStep m c d δ t i st = .next row st1) :
    st1.iterations = st.iterations ∧ st1.converged = st.converged ∧
    st1.errorMsg = st.errorMsg ∧ st1.stopIndex = st.stopIndex := by
  simp only [solveStep, bisectionStep, regulaFalsiStep, secantStep, newtonStep,
    fixedPointStep, modSecantStep] at h
  split_ifs at h <;> simp at h <;>
    (obtain ⟨h1, h2⟩ := h
     subst h1
     subst h2
     exact ⟨rfl, rfl, rfl, rfl⟩)

/-- Shape invariant of the solve_method loop: every completed iteration appends
    exactly one row, a convergence break appends its row, an error break does
    not, and the ghost stop index tracks the Python loop variable. -/
theorem solveMethodLoop_shape (m : String) (c d : List ℚ) (δ t : ℚ) :
    ∀ fuel i st, st.converged = false → st.errorMsg = none →
      st.stopIndex + 1 = i → st.iterations.length + 1 = i →
      ((solveMethodLoop m c d δ t fuel i st).iterations.length ≤
        st.iterations.length + fuel) ∧
      ((solveMethodLoop m c d δ t fuel i st).converged = true →
        (solveMethodLoop m c d δ t fuel i st).iterations.length =
          (solveMethodLoop m c d δ t fuel i st).stopIndex) ∧
      ((solveMethodLoop m c d δ t fuel i st).errorMsg ≠ none →
        (solveMethodLoop m c d δ t fuel i st).iterations.length + 1 =
          (solveMethodLoop m c d δ t fuel i st).stopIndex) ∧
      ((solveMethodLoop m c d δ t fuel i st).converged = false ∧
        (solveMethodLoop m c d δ t fuel i st).errorMsg = none →
        (solveMethodLoop m c d δ t fuel i st).iterations.length =
          st.iterations.length + fuel) := by
  intro fuel
  induction fuel with
  | zero =>
    intro i st hc he _ _
    simp only [solveMethodLoop]
    refine ⟨Nat.le_refl _, ?_, ?_, ?_⟩
    · intro hcv
      rw [hc] at hcv
      exact absurd hcv (by simp)
    · intro hne
      exact absurd he hne
    · intro _
      simp
  | succ f ih =>
    intro i st hc he hsi hli
    rw [solveMethodLoop]
    cases hstep : solveStep m c d δ t i st with
    | err msg =>
      simp only [hstep]
      refine ⟨by simp [Nat.le_add_right], ?_, ?_, ?_⟩
      · intro hcv
        rw [hc] at hcv
        exact absurd hcv (by simp)
      · intro _
        simpa using hli
      · rintro ⟨_, hne⟩
        simp at hne
    | conv row root =>
      simp only [hstep]
      refine ⟨by simp [List.length_append], ?_, ?_, ?_⟩
      · intro _
        simp only [List.length_append, List.length_cons, List.length_nil]
        omega
      · intro hne
        rw [he] at hne
        exact absurd rfl hne
      · rintro ⟨hcv, _⟩
        simp at hcv
    | next row st1 =>
      simp only [hstep]
      obtain ⟨hA, hB, hC, hD⟩ := solveStep_next_fields m c d δ t i st st1 row hstep
      obtain ⟨g1, g2, g3, g4⟩ := ih (i + 1)
        { st1 with iterations := st1.iterations ++ [row], stopIndex := i }
        (by simpa [hB] using hc) (by simpa [hC] using he) (by simp)
        (by simp only [List.length_append, List.length_cons, List.length_nil, hA]; omega)
      refine ⟨?_, g2, g3, ?_⟩
      · refine Nat.le_trans g1 ?_
        simp [hA, List.length_append]
        omega
      · intro hpair
        have hx := g4 hpair
        rw [hx]
        simp [hA, List.length_append]
        omega

/-- The trace returned by finishSolve is the loop trace (or nothing at all,
    when the run raises). -/
theorem finishSolve_trace_length (st : LoopState) :
    (outTrace (finishSolve st)).length ≤ st.iterations.length := by
  unfold finishSolve
  split
  · split
    · simp [outTrace]
    · split
      · simp [outTrace]
      · simp [outTrace]
  · simp [outTrace]

/-- Claim C2 (amended): the trace never exceeds max_iter rows; its length is
    the stop iteration index when the loop stops by convergence, the stop
    index minus one when it stops by fatal error (the failing iteration's row
    is never appended), and exactly max_iter on exhaustion. -/
theorem C2_thm (m : String) (c : List ℚ) (x0 x1 δ t : ℚ) (n : ℕ) :
    (outTrace (solve_method m c x0 x1 δ t n)).length ≤ n ∧
    (runLoop m c x0 x1 δ t n).iterations.length ≤ n ∧
    (runLoop m c x0 x1 δ t n).iterations.length =
      (if (runLoop m c x0 x1 δ t n).converged = true
       then (runLoop m c x0 x1 δ t n).stopIndex
       else if (runLoop m c x0 x1 δ t n).errorMsg = none
       then n
       else (runLoop m c x0 x1 δ t n).stopIndex - 1) := by
  obtain ⟨g1, g2, g3, g4⟩ := solveMethodLoop_shape m c
    (if m = "newton" then get_poly_derivative c else []) δ t n 1
    ⟨x0, x1, x0, x0, [], none, false, none, 0⟩ rfl rfl rfl rfl
  have hrl : runLoop m c x0 x1 δ t n =
      solveMethodLoop m c (if m = "newton" then get_poly_derivative c else []) δ t n 1
        ⟨x0, x1, x0, x0, [], none, false, none, 0⟩ := rfl
  have hb1 : (runLoop m c x0 x1 δ t n).iterations.length ≤ n := by
    rw [hrl]
    simpa using g1
  refine ⟨?_, hb1, ?_⟩
  · exact Nat.le_trans (finishSolve_trace_length (runLoop m c x0 x1 δ t n)) hb1
  · rw [hrl]
    by_cases hcv : (solveMethodLoop m c (if m = "newton" then get_poly_derivative c else [])
        δ t n 1 ⟨x0, x1, x0, x0, [], none, false, none, 0⟩).converged = true
    · rw [if_pos hcv]
      exact g2 hcv
    · rw [if_neg hcv]
      by_cases hne : (solveMethodLoop m c (if m = "newton" then get_poly_derivative c else [])
          δ t n 1 ⟨x0, x1, x0, x0, [], none, false, none, 0⟩).errorMsg = none
      · rw [if_pos hne]
        have hx := g4 ⟨by simpa using hcv, hne⟩
        simpa using hx
      · rw [if_neg hne]
        have hx := g3 hne
        omega

/-- A method name matching none of the six branches produces a row holding
    only the iteration index and leaves the state unchanged. -/
theorem solveStep_unknown (m : String) (c d : List ℚ) (δ t : ℚ) (i : ℕ)
    (st : LoopState)
    (h1 : m ≠ "bisection") (h2 : m ≠ "regula_falsi") (h3 : m ≠ "secant")
    (h4 : m ≠ "newton") (h5 : m ≠ "fixed_point") (h6 : m ≠ "modified_secant") :
    solveStep m c d δ t i st = .next [(RowKey.iter, (i : ℚ))] st := by
  unfold solveStep
  rw [if_neg h1, if_neg h2, if_neg h3, if_neg h4, if_neg h5, if_neg h6]

/-- For an unrecognised method name the loop runs to exhaustion, appending one
    iteration-index-only row per iteration, converging never and erroring
    never. -/
theorem solveMethodLoop_unknown (m : String) (c d : List ℚ) (δ t : ℚ)
    (h1 : m ≠ "bisection") (h2 : m ≠ "regula_falsi") (h3 : m ≠ "secant")
    (h4 : m ≠ "newton") (h5 : m ≠ "fixed_point") (h6 : m ≠ "modified_secant") :
    ∀ fuel i st,
      (solveMethodLoop m c d δ t fuel i st).iterations =
        st.iterations ++ (List.range' i fuel).map (fun k => [(RowKey.iter, (k : ℚ))]) ∧
      (solveMethodLoop m c d δ t fuel i st).converged = st.converged ∧
      (solveMethodLoop m c d δ t fuel i st).errorMsg = st.errorMsg := by
  intro fuel
  induction fuel with
  | zero =>
    intro i st
    simp [solveMethodLoop]
  | succ f ih =>
    intro i st
    rw [solveMethodLoop]
    rw [solveStep_unknown m c d δ t i st h1 h2 h3 h4 h5 h6]
    obtain ⟨ga, gb, gc⟩ := ih (i + 1)
      { st with iterations := st.iterations ++ [[(RowKey.iter, (i : ℚ))]], stopIndex := i }
    refine ⟨?_, by simpa using gb, by simpa using gc⟩
    rw [ga]
    simp [List.range'_succ, List.append_assoc]

/-- Claim C9: called with a method name that is none of the six (and
    max_iter GEQ 1), solve_method appends rows holding only the iteration
    index, and building the exhaustion result fails with a KeyError on the
    missing x_val field, so the call terminates abnormally instead of
    returning a Result. -/
theorem C9_thm (m : String) (c : List ℚ) (x0 x1 δ t : ℚ) (n : ℕ)
    (h1 : m ≠ "bisection") (h2 : m ≠ "regula_falsi") (h3 : m ≠ "secant")
    (h4 : m ≠ "newton") (h5 : m ≠ "fixed_point") (h6 : m ≠ "modified_secant")
    (hn : 1 ≤ n) :
    (runLoop m c x0 x1 δ t n).iterations =
      (List.range' 1 n).map (fun k => [(RowKey.iter, (k : ℚ))]) ∧
    solve_method m c x0 x1 δ t n = SolveOut.keyError := by
  obtain ⟨ga, gb, gc⟩ := solveMethodLoop_unknown m c
    (if m = "newton" then get_poly_derivative c else []) δ t h1 h2 h3 h4 h5 h6 n 1
    ⟨x0, x1, x0, x0, [], none, false, none, 0⟩
  have hiter : (runLoop m c x0 x1 δ t n).iterations =
      (List.range' 1 n).map (fun k => [(RowKey.iter, (k : ℚ))]) := by
    simpa using ga
  have hconv : (runLoop m c x0 x1 δ t n).converged = false := by simpa using gb
  have herr : (runLoop m c x0 x1 δ t n).errorMsg = none := by simpa using gc
  refine ⟨hiter, ?_⟩
  have hnonempty : (runLoop m c x0 x1 δ t n).iterations ≠ [] := by
    rw [hiter]
    cases n with
    | zero => omega
    | succ k => simp [List.range'_succ]
  obtain ⟨row, hrow⟩ : ∃ row,
      (runLoop m c x0 x1 δ t n).iterations.getLast? = some row := by
    cases hgl : (runLoop m c x0 x1 δ t n).iterations.getLast? with
    | none => exact absurd (List.getLast?_eq_none_iff.mp hgl) hnonempty
    | some r => exact ⟨r, rfl⟩
  have hmem := List.mem_of_getLast?_eq_some hrow
  rw [hiter] at hmem
  obtain ⟨k, hk, hkrow⟩ := List.mem_map.mp hmem
  have hxval : rowGet row RowKey.x_val = none := by
    rw [← hkrow]
    simp [rowGet]
  show finishSolve (runLoop m c x0 x1 δ t n) = SolveOut.keyError
  unfold finishSolve
  rw [if_pos ⟨hconv, herr⟩]
  simp only [hrow, hxval]

/-- Witness for C9_thm at the unrecognised method name "foo" with max_iter 1. -/
theorem C9_witness :
    ("foo" ≠ "bisection" ∧ "foo" ≠ "regula_falsi" ∧ "foo" ≠ "secant" ∧
     "foo" ≠ "newton" ∧ "foo" ≠ "fixed_point" ∧ "foo" ≠ "modified_secant" ∧
     1 ≤ 1) ∧
    ((runLoop "foo" [] 0 0 0 0 1).iterations =
      (List.range' 1 1).map (fun k => [(RowKey.iter, (k : ℚ))]) ∧
     solve_method "foo" [] 0 0 0 0 1 = SolveOut.keyError) :=
  ⟨⟨by decide, by decide, by decide, by decide, by decide, by decide, by decide⟩,
    C9_thm "foo" [] 0 0 0 0 1 (by decide) (by decide) (by decide) (by decide)
      (by decide) (by decide) (by decide)⟩

/-- Two rational values with negative product are nonzero and their distance
    is the sum of their absolute values. -/
theorem mul_neg_abs_sub (fa fb : ℚ) (h : fa * fb < 0) :
    fa ≠ 0 ∧ fb ≠ 0 ∧ |fb - fa| = |fa| + |fb| := by
  rcases mul_neg_iff.mp h with ⟨h1, h2⟩ | ⟨h1, h2⟩
  · exact ⟨ne_of_gt h1, ne_of_lt h2,
      by rw [abs_of_pos h1, abs_of_neg h2, abs_of_neg (by linarith : fb - fa < 0)]; ring⟩
  · exact ⟨ne_of_lt h1, ne_of_gt h2,
      by rw [abs_of_neg h1, abs_of_pos h2, abs_of_pos (by linarith : (0 : ℚ) < fb - fa)]; ring⟩

/-- Half-selection: when f(a)f(b) < 0, f(a)f(x) is not negative, and
    f(x) is not zero, the other half carries the sign change. -/
theorem sign_flip (fa fb fx : ℚ) (h : fa * fb < 0) (hge : ¬ fa * fx < 0)
    (hx : fx ≠ 0) : fx * fb < 0 := by
  rcases mul_neg_iff.mp h with ⟨h1, h2⟩ | ⟨h1, h2⟩
  · have hfx : 0 ≤ fx := by
      by_contra hneg
      exact hge (mul_neg_of_pos_of_neg h1 (not_le.mp hneg))
    exact mul_neg_of_pos_of_neg (lt_of_le_of_ne hfx (Ne.symm hx)) h2
  · have hfx : fx ≤ 0 := by
      by_contra hpos
      exact hge (mul_neg_of_neg_of_pos h1 (not_le.mp hpos))
    exact mul_neg_of_neg_of_pos (lt_of_le_of_ne hfx hx) h2

/-- The Regula Falsi interpolation point lies strictly inside the bracket:
    both of its distances to the endpoints are below the bracket width. -/
theorem regula_between (fa fb x0 x1 : ℚ) (hD : fb - fa ≠ 0)
    (habs : |fb - fa| = |fa| + |fb|) (hfa : fa ≠ 0) (hfb : fb ≠ 0)
    (hx : x0 ≠ x1) :
    |(x0 * fb - x1 * fa) / (fb - fa) - x0| < |x1 - x0| ∧
    |x1 - (x0 * fb - x1 * fa) / (fb - fa)| < |x1 - x0| := by
  have h1 : (x0 * fb - x1 * fa) / (fb - fa) - x0 = fa * (x0 - x1) / (fb - fa) := by
    field_simp
    ring
  have h2 : x1 - (x0 * fb - x1 * fa) / (fb - fa) = fb * (x1 - x0) / (fb - fa) := by
    field_simp
    ring
  have hw : 0 < |x1 - x0| := abs_pos.mpr (sub_ne_zero.mpr (Ne.symm hx))
  have hfa1 : 0 < |fa| := abs_pos.mpr hfa
  have hfb1 : 0 < |fb| := abs_pos.mpr hfb
  constructor
  · rw [h1, abs_div, abs_mul, habs, abs_sub_comm x0 x1]
    rw [div_lt_iff (by linarith)]
    nlinarith [mul_pos hw hfb1]
  · rw [h2, abs_div, abs_mul, habs]
    rw [div_lt_iff (by linarith)]
    nlinarith [mul_pos hw hfa1]

/-- Claim C4 (amended): for positive tolerance, each continuing (non-stopping)
    Bisection and Regula Falsi iteration of the web engine produces a strictly
    smaller bracket that still carries a sign change; the Bisection error
    magnitude is the bracket width, which halves each iteration and so never
    increases.  (The Regula Falsi error magnitude can increase; see the
    counterexample.) -/
theorem C4_thm (c : List ℚ) (t : ℚ) (i : ℕ) (st st1 st2 : LoopState) (r1 r2 : Row)
    (ht : 0 < t)
    (hb : bisectionStep c t i st = .next r1 st1)
    (hr : regulaFalsiStep c t i st = .next r2 st2) :
    |st1.x1 - st1.x0| = |st.x1 - st.x0| / 2 ∧
    |st1.x1 - st1.x0| < |st.x1 - st.x0| ∧
    eval_poly c st1.x0 * eval_poly c st1.x1 < 0 ∧
    rowGet r1 RowKey.error = some |st.x1 - st.x0| ∧
    |st2.x1 - st2.x0| < |st.x1 - st.x0| ∧
    eval_poly c st2.x0 * eval_poly c st2.x1 < 0 := by
  simp only [bisectionStep] at hb
  simp only [regulaFalsiStep] at hr
  by_cases hge : eval_poly c st.x0 * eval_poly c st.x1 ≥ 0
  · rw [if_pos hge] at hb
    exact absurd hb (by simp)
  rw [if_neg hge] at hb
  rw [if_neg hge] at hr
  have hbr : eval_poly c st.x0 * eval_poly c st.x1 < 0 := lt_of_not_ge hge
  obtain ⟨hfa, hfb, habs⟩ := mul_neg_abs_sub _ _ hbr
  have hxne : st.x0 ≠ st.x1 := by
    intro hxeq
    rw [hxeq] at hbr
    exact absurd hbr (not_lt.mpr (mul_self_nonneg _))
  have hw : 0 < |st.x1 - st.x0| := abs_pos.mpr (sub_ne_zero.mpr (Ne.symm hxne))
  have HB : |st1.x1 - st1.x0| = |st.x1 - st.x0| / 2 ∧
      eval_poly c st1.x0 * eval_poly c st1.x1 < 0 ∧
      rowGet r1 RowKey.error = some |st.x1 - st.x0| := by
    by_cases hcv : |eval_poly c ((st.x0 + st.x1) / 2)| < t ∨ |st.x1 - st.x0| < t
    · rw [if_pos hcv] at hb
      exact absurd hb (by simp)
    rw [if_neg hcv] at hb
    push_neg at hcv
    obtain ⟨hcv1, hcv2⟩ := hcv
    have hfxm : eval_poly c ((st.x0 + st.x1) / 2) ≠ 0 := by
      intro h0
      rw [h0] at hcv1
      simp at hcv1
      linarith
    by_cases hsg : eval_poly c st.x0 * eval_poly c ((st.x0 + st.x1) / 2) < 0
    · rw [if_pos hsg] at hb
      injection hb with e1 e2
      subst e1
      subst e2
      refine ⟨?_, hsg, rfl⟩
      rw [show (st.x0 + st.x1) / 2 - st.x0 = (st.x1 - st.x0) / 2 from by ring, abs_div]
      norm_num
    · rw [if_neg hsg] at hb
      injection hb with e1 e2
      subst e1
      subst e2
      refine ⟨?_, sign_flip _ _ _ hbr hsg hfxm, rfl⟩
      rw [show st.x1 - (st.x0 + st.x1) / 2 = (st.x1 - st.x0) / 2 from by ring, abs_div]
      norm_num
  have HR : |st2.x1 - st2.x0| < |st.x1 - st.x0| ∧
      eval_poly c st2.x0 * eval_poly c st2.x1 < 0 := by
    have hD : eval_poly c st.x1 - eval_poly c st.x0 ≠ 0 := by
      intro h0
      rw [h0] at habs
      simp at habs
      have := abs_pos.mpr hfa
      have := abs_nonneg (eval_poly c st.x1)
      linarith
    obtain ⟨hlt1, hlt2⟩ := regula_between (eval_poly c st.x0) (eval_poly c st.x1)
      st.x0 st.x1 hD habs hfa hfb hxne
    by_cases hcvr : |eval_poly c ((st.x0 * eval_poly c st.x1 - st.x1 * eval_poly c st.x0) /
        (eval_poly c st.x1 - eval_poly c st.x0))| < t
    · rw [if_pos hcvr] at hr
      exact absurd hr (by simp)
    rw [if_neg hcvr] at hr
    push_neg at hcvr
    have hfxn : eval_poly c ((st.x0 * eval_poly c st.x1 - st.x1 * eval_poly c st.x0) /
        (eval_poly c st.x1 - eval_poly c st.x0)) ≠ 0 := by
      intro h0
      rw [h0] at hcvr
      simp at hcvr
      linarith
    by_cases hsgr : eval_poly c st.x0 * eval_poly c ((st.x0 * eval_poly c st.x1 -
        st.x1 * eval_poly c st.x0) / (eval_poly c st.x1 - eval_poly c st.x0)) < 0
    · rw [if_pos hsgr] at hr
      injection hr with e1 e2
      subst e1
      subst e2
      exact ⟨hlt1, hsgr⟩
    · rw [if_neg hsgr] at hr
      injection hr with e1 e2
      subst e1
      subst e2
      exact ⟨hlt2, sign_flip _ _ _ hbr hsgr hfxn⟩
  exact ⟨HB.1, by rw [HB.1]; exact half_lt_self hw, HB.2.1, HB.2.2, HR.1, HR.2⟩

/-- Witness for C4_thm: f(x) = x^2 - 2 on the bracket (1, 2) with tolerance
    1/10; Bisection continues to (1, 3/2), Regula Falsi to (4/3, 2). -/
theorem C4_witness :
    ((0 : ℚ) < 1/10 ∧
     bisectionStep [1, 0, -2] (1/10) 1 ⟨1, 2, 1, 1, [], none, false, none, 0⟩ =
       .next [(RowKey.iter, 1), (RowKey.a, 1), (RowKey.b, 2), (RowKey.x_val, 3/2),
              (RowKey.f_x, 1/4), (RowKey.error, 1)]
         ⟨1, 3/2, 1, 1, [], none, false, none, 0⟩ ∧
     regulaFalsiStep [1, 0, -2] (1/10) 1 ⟨1, 2, 1, 1, [], none, false, none, 0⟩ =
       .next [(RowKey.iter, 1), (RowKey.a, 1), (RowKey.b, 2), (RowKey.x_val, 4/3),
              (RowKey.f_x, -(2/9)), (RowKey.error, 1)]
         ⟨4/3, 2, 1, 4/3, [], none, false, none, 0⟩) ∧
    (|(3/2 : ℚ) - 1| = |(2 : ℚ) - 1| / 2 ∧
     |(3/2 : ℚ) - 1| < |(2 : ℚ) - 1| ∧
     eval_poly [1, 0, -2] (1 : ℚ) * eval_poly [1, 0, -2] (3/2) < 0 ∧
     rowGet [(RowKey.iter, 1), (RowKey.a, 1), (RowKey.b, 2), (RowKey.x_val, 3/2),
             (RowKey.f_x, 1/4), (RowKey.error, 1)] RowKey.error = some |(2 : ℚ) - 1| ∧
     |(2 : ℚ) - 4/3| < |(2 : ℚ) - 1| ∧
     eval_poly [1, 0, -2] (4/3 : ℚ) * eval_poly [1, 0, -2] 2 < 0) :=
  ⟨⟨by decide, by decide, by decide⟩,
    C4_thm [1, 0, -2] (1/10) 1 ⟨1, 2, 1, 1, [], none, false, none, 0⟩
      ⟨1, 3/2, 1, 1, [], none, false, none, 0⟩
      ⟨4/3, 2, 1, 4/3, [], none, false, none, 0⟩
      [(RowKey.iter, 1), (RowKey.a, 1), (RowKey.b, 2), (RowKey.x_val, 3/2),
       (RowKey.f_x, 1/4), (RowKey.error, 1)]
      [(RowKey.iter, 1), (RowKey.a, 1), (RowKey.b, 2), (RowKey.x_val, 4/3),
       (RowKey.f_x, -(2/9)), (RowKey.error, 1)]
      (by decide) (by decide) (by decide)⟩

end ZOF
